import Mathlib

/-!
Shallow embedding of the review-agent orchestration code
(source file: src/review-agent.ts) and proofs of the specified
properties of its validator, event interpreter and report renderer.

JavaScript runtime values are modelled by the inductive type JSValue.
Numbers are modelled as integers: every numeric value the properties
below inspect is an integer, and no property depends on fractional
formatting.  Console output is modelled as a list of strings, one entry
per console.log call; the newline escapes inside template literals are
kept inside the strings.
-/

/-- Model of a JavaScript runtime value. -/
inductive JSValue where
  | undefined : JSValue
  | null : JSValue
  | boolean : Bool → JSValue
  | number : Int → JSValue
  | string : String → JSValue
  | array : List JSValue → JSValue
  | object : List (String × JSValue) → JSValue
deriving BEq, Repr

namespace JSValue

/-- Result of the JavaScript typeof operator: typeof null, typeof an
array and typeof a plain object are all the string object. -/
def jsTypeof : JSValue → String
  | .undefined => "undefined"
  | .null => "object"
  | .boolean _ => "boolean"
  | .number _ => "number"
  | .string _ => "string"
  | .array _ => "object"
  | .object _ => "object"

/-- Array.isArray. -/
def isArr : JSValue → Bool
  | .array _ => true
  | _ => false

/-- JavaScript truthiness: undefined, null, false, 0 and the empty
string are falsy; arrays and objects are always truthy. -/
def jsTruthy : JSValue → Bool
  | .undefined => false
  | .null => false
  | .boolean b => b
  | .number n => n != 0
  | .string s => s != ""
  | .array _ => true
  | .object _ => true

/-- Strict equality with the null literal, as in the comparison
obj === null. -/
def isNull : JSValue → Bool
  | .null => true
  | _ => false

/-- A value is nullish when it is undefined or null; the ?? operator
replaces exactly these values with its right operand. -/
def nullish : JSValue → Bool
  | .undefined => true
  | .null => true
  | _ => false

/-- The ?? (nullish coalescing) operator. -/
def coalesce (v dflt : JSValue) : JSValue :=
  if v.nullish then dflt else v

/-- Property access obj.key on a value: a lookup among the fields of a
plain object (first binding wins), undefined on every other value. -/
def getProp : JSValue → String → JSValue
  | .object fields, key =>
      match fields.find? (fun p => p.1 == key) with
      | some p => p.2
      | none => .undefined
  | _, _ => .undefined

mutual
/-- The String(v) conversion / template-literal interpolation of a
value: the default conversions with no custom toString in play. -/
def jsToString : JSValue → String
  | .undefined => "undefined"
  | .null => "null"
  | .boolean b => if b then "true" else "false"
  | .number n => toString n
  | .string s => s
  | .array xs => jsToStringList xs
  | .object _ => "[object Object]"

/-- Array-to-string: elements joined by commas. -/
def jsToStringList : List JSValue → String
  | [] => ""
  | [x] => jsToStringElem x
  | x :: xs => jsToStringElem x ++ "," ++ jsToStringList xs

/-- Inside an array, null and undefined elements print as empty. -/
def jsToStringElem : JSValue → String
  | .undefined => ""
  | .null => ""
  | v => jsToString v
end

end JSValue

open JSValue

/-- Embedding of isValidReviewResult (src/review-agent.ts, lines 63 to
70): the structural type guard over an untyped payload. -/
def isValidReviewResult (obj : JSValue) : Bool :=
  if obj.jsTypeof != "object" || obj.isNull then false
  else if !(obj.getProp "issues").isArr then false
  else if (obj.getProp "summary").jsTypeof != "string" then false
  else if (obj.getProp "overallScore").jsTypeof != "number" then false
  else true

/-- Shape required by the spec wording of the validator claim: a
non-null plain object whose issues field is an array, whose summary
field is a string and whose overallScore field is a number.  Written
from the spec sentence, to be compared with isValidReviewResult. -/
def specValidResultShape (v : JSValue) : Prop :=
  (∃ fields, v = JSValue.object fields) ∧
    (v.getProp "issues").isArr = true ∧
    (v.getProp "summary").jsTypeof = "string" ∧
    (v.getProp "overallScore").jsTypeof = "number"

/-- Embedding of the tool input record: field lookup with undefined as
the absent value. -/
def lookupField (input : List (String × JSValue)) (key : String) : JSValue :=
  match input.find? (fun p => p.1 == key) with
  | some p => p.2
  | none => .undefined

/-- Embedding of getToolSummary (src/review-agent.ts, lines 146 to
154): closed dispatch on the tool name. -/
def getToolSummary (name : String) (input : List (String × JSValue)) : String :=
  if name == "Read" then
    jsToString (coalesce (lookupField input "file_path") (.string "file"))
  else if name == "Glob" then
    jsToString (coalesce (lookupField input "pattern") (.string "pattern"))
  else if name == "Grep" then
    "\"" ++ jsToString (coalesce (lookupField input "pattern") (.string "")) ++
      "\" in " ++ jsToString (coalesce (lookupField input "path") (.string "."))
  else ""

/-- Content block of an assistant message: a tool_use block carries a
name and an input record, any other block carries neither. -/
inductive ContentBlock where
  | toolUse (name : String) (input : List (String × JSValue)) : ContentBlock
  | text (s : String) : ContentBlock
deriving BEq, Repr

/-- Session event as streamed by the query call: assistant messages
carrying content blocks, the terminal result message carrying a status
subtype, the structured output (undefined when absent) and an optional
cumulative cost, and other system messages the loop ignores.  Cost is
modelled in integer units; no proved property inspects its digits. -/
inductive SDKMessage where
  | assistant (content : List ContentBlock) : SDKMessage
  | result (subtype : String) (structuredOutput : JSValue)
      (totalCostUsd : Option Int) : SDKMessage
  | system : SDKMessage
deriving BEq, Repr

/-- The toFixed(4) rendering of the (integer-modelled) cost. -/
def toFixed4 (n : Int) : String := toString n ++ ".0000"

/-- Progress lines emitted for one content block of an assistant
message (src/review-agent.ts, lines 116 to 124): a Task invocation
logs the delegation line, any other tool_use block logs one
ToolInvocationSummary line, blocks without name and input log
nothing. -/
def processBlock : ContentBlock → List String
  | .toolUse name input =>
      if name == "Task" then
        ["🤖 Delegating to: " ++
          jsToString (coalesce (lookupField input "subagent_type") (.string "unknown"))]
      else
        ["📂 " ++ name ++ ": " ++ getToolSummary name input]
  | .text _ => []

/-- One iteration of the event loop (src/review-agent.ts, lines 112 to
141), acting on the state made of the single result slot and the log
of emitted lines. -/
def processMessage : Option JSValue × List String → SDKMessage →
    Option JSValue × List String
  | (slot, log), .assistant content =>
      (slot, log ++ content.flatMap processBlock)
  | (slot, log), .result subtype out cost =>
      if subtype == "success" && out.jsTruthy then
        if isValidReviewResult out then
          (some out,
            log ++ ["\n✅ Review complete! Cost: $" ++ toFixed4 (cost.getD 0)])
        else
          (slot, log ++ ["\n❌ Review failed: Invalid response structure"])
      else
        (slot, log ++ ["\n❌ Review failed: " ++ subtype])
  | (slot, log), .system => (slot, log)

/-- Embedding of the body of runCodeReview (src/review-agent.ts, lines
72 to 144) applied to the list of messages the session stream yields:
the slot starts unset, every message is processed in order, and the
final slot is the returned value. -/
def runCodeReview (msgs : List SDKMessage) : Option JSValue × List String :=
  msgs.foldl processMessage (none, [])

/-- Whether a message is the terminal result event. -/
def isResultMsg : SDKMessage → Bool
  | .result _ _ _ => true
  | _ => false

/-- One review issue, with the field types of the ReviewResult
interface (src/review-agent.ts, lines 5 to 16); the severity and
category unions are modelled as strings, and the renderer theorems
that need it assume severity is one of the four declared values. -/
structure ReviewIssue where
  severity : String
  category : String
  file : String
  line : Option Int
  description : String
  suggestion : Option String
deriving DecidableEq, Repr

/-- The validated review result handed to the renderer. -/
structure ReviewResult where
  issues : List ReviewIssue
  summary : String
  overallScore : Int
deriving DecidableEq, Repr

/-- Repetition of a string, as the JavaScript repeat method. -/
def repeatStr (s : String) (n : Nat) : String :=
  String.join (List.replicate n s)

/-- The 50-character separator line produced by the repeat call. -/
def eqLine : String := repeatStr "=" 50

/-- The 30-character dash line produced by the repeat call. -/
def dashLine : String := repeatStr "-" 30

/-- Location string of one issue (src/review-agent.ts, line 183): the
conditional tests the truthiness of the line number, so an absent line
and a line equal to 0 both render the file alone. -/
def issueLocation (issue : ReviewIssue) : String :=
  match issue.line with
  | some n => if n != 0 then issue.file ++ ":" ++ toString n else issue.file
  | none => issue.file

/-- Lines printed for one issue inside a bucket (src/review-agent.ts,
lines 182 to 189); the suggestion is printed only when truthy, that
is, present and non-empty. -/
def printIssue (issue : ReviewIssue) : List String :=
  ["\n[" ++ issue.category ++ "] " ++ issueLocation issue,
   "  " ++ issue.description] ++
    (match issue.suggestion with
     | some s => if s != "" then ["  💡 " ++ s] else []
     | none => [])

/-- Marker glyph for a severity key (src/review-agent.ts, lines 175 to
177). -/
def sevIcon (severity : String) : String :=
  if severity == "critical" then "🔴"
  else if severity == "high" then "🟠"
  else if severity == "medium" then "🟡" else "🟢"

/-- One severity bucket of the byCategory record (src/review-agent.ts,
lines 165 to 170): the issues whose severity matches exactly. -/
def bucketOf (issues : List ReviewIssue) (severity : String) : List ReviewIssue :=
  issues.filter (fun i => i.severity == severity)

/-- Bucket header line emitted for a non-empty bucket. -/
def bucketHeaderLine (severity : String) (count : Nat) : String :=
  "\n" ++ sevIcon severity ++ " " ++ severity.toUpper ++ " (" ++ toString count ++ ")"

/-- Lines printed for one entry of the byCategory record
(src/review-agent.ts, lines 172 to 190): nothing when the bucket is
empty, otherwise the header, the dash line and the issues. -/
def printBucket (severity : String) (issues : List ReviewIssue) : List String :=
  if issues.length == 0 then []
  else
    bucketHeaderLine severity issues.length :: dashLine ::
      issues.flatMap printIssue

/-- The keys of the byCategory record in insertion order, which is the
order Object.entries iterates them. -/
def severityOrder : List String := ["critical", "high", "medium", "low"]

/-- Embedding of printResults (src/review-agent.ts, lines 156 to 191)
as the list of printed lines. -/
def printResults (result : ReviewResult) : List String :=
  ["\n" ++ eqLine,
   "📊 REVIEW RESULTS",
   eqLine ++ "\n",
   "Score: " ++ toString result.overallScore ++ "/100",
   "Issues Found: " ++ toString result.issues.length ++ "\n",
   "Summary: " ++ result.summary ++ "\n"] ++
    severityOrder.flatMap (fun sev => printBucket sev (bucketOf result.issues sev))

/-- Sample critical-severity issue used by concrete witnesses. -/
def sampleIssueCritical : ReviewIssue :=
  ⟨"critical", "security", "auth.ts", none, "hardcoded secret", none⟩

/-- Sample high-severity issue used by concrete witnesses. -/
def sampleIssueHigh : ReviewIssue :=
  ⟨"high", "bug", "b.ts", some 42, "overflow", none⟩

/-- Sample low-severity issue used by concrete witnesses. -/
def sampleIssueLow : ReviewIssue :=
  ⟨"low", "style", "a.ts", some 0, "naming", some "rename"⟩

/-- Sample structured payload that passes the validator, used by
concrete witnesses. -/
def samplePayload : JSValue :=
  .object [("issues", .array []), ("summary", .string "s"),
    ("overallScore", .number 0)]

/-- Helper: the concatenation of the four severity buckets is a
permutation of the input list, provided every severity is one of the
four declared values. -/
theorem four_buckets_perm (l : List ReviewIssue)
    (h : ∀ i ∈ l, i.severity ∈ severityOrder) :
    (bucketOf l "critical" ++ bucketOf l "high" ++ bucketOf l "medium" ++
      bucketOf l "low").Perm l := by
  induction l with
  | nil => simp [bucketOf]
  | cons a t ih =>
    have ha := h a (List.mem_cons_self a t)
    have ht : ∀ i ∈ t, i.severity ∈ severityOrder :=
      fun i hi => h i (List.mem_cons_of_mem a hi)
    have iht := ih ht
    simp only [bucketOf, List.append_assoc] at iht
    simp only [severityOrder, List.mem_cons, List.not_mem_nil, or_false] at ha
    rcases ha with h1 | h1 | h1 | h1
    · simp [bucketOf, List.filter_cons, h1]
      exact iht
    · simp [bucketOf, List.filter_cons, h1]
      exact List.perm_middle.trans (iht.cons a)
    · simp [bucketOf, List.filter_cons, h1]
      rw [← List.append_assoc]
      refine List.perm_middle.trans (List.Perm.cons a ?_)
      simpa [List.append_assoc] using iht
    · simp [bucketOf, List.filter_cons, h1]
      rw [← List.append_assoc, ← List.append_assoc]
      refine List.perm_middle.trans (List.Perm.cons a ?_)
      simpa [List.append_assoc] using iht

/-- Helper: a flatMap may be restricted to the elements selected by a
test once the dropped elements contribute nothing. -/
theorem flatMap_filter_of_empty {α β : Type} (p : α → Bool) (g : α → List β)
    (l : List α) (h : ∀ x ∈ l, p x = false → g x = []) :
    l.flatMap g = (l.filter p).flatMap g := by
  induction l with
  | nil => simp
  | cons a t ih =>
    have ht : ∀ x ∈ t, p x = false → g x = [] :=
      fun x hx => h x (List.mem_cons_of_mem a hx)
    cases hp : p a with
    | true => simp [List.filter_cons, hp, ih ht]
    | false => simp [List.filter_cons, hp, h a (List.mem_cons_self a t) hp, ih ht]

/-- Helper: when every terminal event in the stream either reports a
non-success status or carries a payload that is absent or fails
validation, the result slot stays unset through the whole fold. -/
theorem runLoop_none_of_all_fail (msgs : List SDKMessage)
    (h : ∀ subtype out cost, SDKMessage.result subtype out cost ∈ msgs →
      ¬(subtype = "success" ∧ JSValue.jsTruthy out = true ∧
          isValidReviewResult out = true)) :
    ∀ log : List String, (msgs.foldl processMessage (none, log)).1 = none := by
  induction msgs with
  | nil => intro log; rfl
  | cons m t ih =>
    intro log
    have ht : ∀ subtype out cost, SDKMessage.result subtype out cost ∈ t →
        ¬(subtype = "success" ∧ JSValue.jsTruthy out = true ∧
            isValidReviewResult out = true) :=
      fun st out cost hm => h st out cost (List.mem_cons_of_mem m hm)
    cases m with
    | assistant content => simpa [processMessage] using ih ht _
    | system => simpa [processMessage] using ih ht log
    | result st out cost =>
      have hm := h st out cost (List.mem_cons_self _ _)
      by_cases hc : (st == "success" && JSValue.jsTruthy out) = true
      · rcases (Bool.and_eq_true _ _).mp hc with ⟨h1, h2⟩
        have hv : isValidReviewResult out = false := by
          cases hvv : isValidReviewResult out
          · rfl
          · exact absurd ⟨eq_of_beq h1, h2, hvv⟩ hm
        simp only [List.foldl_cons, processMessage, hc, hv, if_true, if_false,
          Bool.false_eq_true]
        exact ih ht _
      · simp only [List.foldl_cons, processMessage, hc, if_false,
          Bool.false_eq_true]
        exact ih ht _

/-- Helper: a fold over messages none of which is the terminal result
event leaves the result slot untouched. -/
theorem slot_preserved_nonresult (msgs : List SDKMessage)
    (h : ∀ m ∈ msgs, isResultMsg m = false) :
    ∀ (slot : Option JSValue) (log : List String),
      (msgs.foldl processMessage (slot, log)).1 = slot := by
  induction msgs with
  | nil => intro slot log; rfl
  | cons m t ih =>
    intro slot log
    have ht : ∀ m ∈ t, isResultMsg m = false :=
      fun x hx => h x (List.mem_cons_of_mem m hx)
    cases m with
    | assistant content => simpa [processMessage] using ih ht slot _
    | system => simpa [processMessage] using ih ht slot log
    | result st out cost =>
      exact absurd (h _ (List.mem_cons_self _ _)) (by simp [isResultMsg])

/-- Helper: a filled result slot can only come from a success terminal
event whose payload is truthy and passes validation, or from the slot
the fold started with. -/
theorem fold_some_source (msgs : List SDKMessage) :
    ∀ (slot : Option JSValue) (log : List String) (v : JSValue),
      (msgs.foldl processMessage (slot, log)).1 = some v →
      (∃ cost, SDKMessage.result "success" v cost ∈ msgs ∧
        JSValue.jsTruthy v = true ∧ isValidReviewResult v = true) ∨
      slot = some v := by
  induction msgs with
  | nil => intro slot log v h; exact Or.inr h
  | cons m t ih =>
    intro slot log v h
    cases m with
    | assistant content =>
      rcases ih _ _ v (by simpa [processMessage] using h) with hin | hslot
      · exact Or.inl (by
          rcases hin with ⟨cost, hmem, h2, h3⟩
          exact ⟨cost, List.mem_cons_of_mem _ hmem, h2, h3⟩)
      · exact Or.inr hslot
    | system =>
      rcases ih _ _ v (by simpa [processMessage] using h) with hin | hslot
      · exact Or.inl (by
          rcases hin with ⟨cost, hmem, h2, h3⟩
          exact ⟨cost, List.mem_cons_of_mem _ hmem, h2, h3⟩)
      · exact Or.inr hslot
    | result st out cost =>
      by_cases hc : (st == "success" && JSValue.jsTruthy out) = true
      · by_cases hv : isValidReviewResult out = true
        · rcases (Bool.and_eq_true _ _).mp hc with ⟨h1, h2⟩
          have hstep : (t.foldl processMessage
              (some out, log ++ ["\n✅ Review complete! Cost: $" ++
                toFixed4 (cost.getD 0)])).1 = some v := by
            simpa [List.foldl_cons, processMessage, hc, hv] using h
          rcases ih _ _ v hstep with hin | hslot
          · exact Or.inl (by
              rcases hin with ⟨c2, hmem, hh2, hh3⟩
              exact ⟨c2, List.mem_cons_of_mem _ hmem, hh2, hh3⟩)
          · have hov : out = v := by
              simpa using hslot
            subst hov
            exact Or.inl ⟨cost, by
              rw [eq_of_beq h1] at *
              exact List.mem_cons_self _ _, h2, hv⟩
        · have hstep : (t.foldl processMessage
              (slot, log ++ ["\n❌ Review failed: Invalid response structure"])).1 =
                some v := by
            simpa [List.foldl_cons, processMessage, hc, hv] using h
          rcases ih _ _ v hstep with hin | hslot
          · exact Or.inl (by
              rcases hin with ⟨c2, hmem, hh2, hh3⟩
              exact ⟨c2, List.mem_cons_of_mem _ hmem, hh2, hh3⟩)
          · exact Or.inr hslot
      · have hstep : (t.foldl processMessage
            (slot, log ++ ["\n❌ Review failed: " ++ st])).1 = some v := by
          simpa [List.foldl_cons, processMessage, hc] using h
        rcases ih _ _ v hstep with hin | hslot
        · exact Or.inl (by
            rcases hin with ⟨c2, hmem, hh2, hh3⟩
            exact ⟨c2, List.mem_cons_of_mem _ hmem, hh2, hh3⟩)
        · exact Or.inr hslot

/-- C1: the result validator returns true exactly on non-null plain
objects whose issues field is an array, whose summary field is a
string and whose overallScore field is a number; every other shape
yields false, and since the spec-side shape places no constraint on
the elements of issues, an array of arbitrary elements is accepted,
as the second conjunct shows directly. -/
theorem isValidReviewResult_iff_spec_shape :
    (∀ v : JSValue, isValidReviewResult v = true ↔ specValidResultShape v) ∧
    (∀ (elems : List JSValue) (s : String) (n : Int),
      isValidReviewResult
        (JSValue.object
          [("issues", JSValue.array elems), ("summary", JSValue.string s),
           ("overallScore", JSValue.number n)]) = true) := by
  constructor
  · intro v
    cases v <;>
      simp [isValidReviewResult, specValidResultShape, JSValue.jsTypeof,
        JSValue.getProp, JSValue.isArr, JSValue.isNull]
  · intro elems s n
    simp [isValidReviewResult, JSValue.jsTypeof, JSValue.getProp,
      JSValue.isArr, JSValue.isNull, List.find?]

/-- C2: for a validated ReviewResult, whose severities are among the
four declared values, the concatenation of the four severity buckets
in priority order is a permutation of the issues list, every element
sits in the bucket matching its severity, and every bucket is a
sublist of the issues list, hence preserves original relative
order. -/
theorem printResults_severity_partition (r : ReviewResult)
    (h : ∀ i ∈ r.issues, i.severity ∈ severityOrder) :
    (bucketOf r.issues "critical" ++ bucketOf r.issues "high" ++
      bucketOf r.issues "medium" ++ bucketOf r.issues "low").Perm r.issues ∧
    (∀ sev, ∀ i ∈ bucketOf r.issues sev, i.severity = sev) ∧
    (∀ sev, (bucketOf r.issues sev).Sublist r.issues) := by
  refine ⟨four_buckets_perm r.issues h, ?_, ?_⟩
  · intro sev i hi
    have := List.of_mem_filter hi
    simpa using this
  · intro sev
    exact List.filter_sublist r.issues

/-- Witness for C2 at a concrete two-element result. -/
theorem printResults_severity_partition_witness :
    (bucketOf [sampleIssueHigh, sampleIssueCritical] "critical" ++
      bucketOf [sampleIssueHigh, sampleIssueCritical] "high" ++
      bucketOf [sampleIssueHigh, sampleIssueCritical] "medium" ++
      bucketOf [sampleIssueHigh, sampleIssueCritical] "low").Perm
        [sampleIssueHigh, sampleIssueCritical] :=
  (printResults_severity_partition
    ⟨[sampleIssueHigh, sampleIssueCritical], "s", 80⟩
    (by
      intro i hi
      rcases List.mem_cons.mp hi with rfl | hi2
      · simp [sampleIssueHigh, severityOrder]
      · rcases List.mem_singleton.mp hi2 with rfl
        simp [sampleIssueCritical, severityOrder])).1

/-- C3: everything the renderer prints after the six header lines is
the concatenation, in the fixed priority order critical, high, medium,
low, of the blocks of the non-empty buckets only; a non-empty bucket
contributes exactly one header line followed by the dash line and its
issues, an empty bucket contributes no output at all, and a result
whose issues are all of severity low leaves exactly the low bucket,
hence exactly one severity header. -/
theorem printResults_bucket_order (r : ReviewResult) :
    ((printResults r).drop 6 =
      (severityOrder.filter
          (fun sev => !(bucketOf r.issues sev).isEmpty)).flatMap
        (fun sev => printBucket sev (bucketOf r.issues sev))) ∧
    (∀ sev issues, issues ≠ [] →
      printBucket sev issues =
        bucketHeaderLine sev issues.length :: dashLine ::
          issues.flatMap printIssue) ∧
    (∀ sev, printBucket sev [] = []) ∧
    (r.issues ≠ [] → (∀ i ∈ r.issues, i.severity = "low") →
      severityOrder.filter (fun sev => !(bucketOf r.issues sev).isEmpty) =
        ["low"]) := by
  refine ⟨?_, ?_, ?_, ?_⟩
  · have step1 : (printResults r).drop 6 =
        severityOrder.flatMap
          (fun sev => printBucket sev (bucketOf r.issues sev)) := by
      simp [printResults]
    rw [step1]
    apply flatMap_filter_of_empty
    intro sev _ hfalse
    have hempty : (bucketOf r.issues sev).isEmpty = true := by
      simpa using hfalse
    rw [List.isEmpty_iff] at hempty
    simp [printBucket, hempty]
  · intro sev issues hne
    have hlen : (issues.length == 0) = false := by
      simp [List.length_eq_zero, hne]
    simp [printBucket, hlen]
  · intro sev
    simp [printBucket]
  · intro hne hlow
    have hc : bucketOf r.issues "critical" = [] := by
      simp only [bucketOf, List.filter_eq_nil_iff]
      intro i hi
      simp [hlow i hi]
    have hh : bucketOf r.issues "high" = [] := by
      simp only [bucketOf, List.filter_eq_nil_iff]
      intro i hi
      simp [hlow i hi]
    have hm : bucketOf r.issues "medium" = [] := by
      simp only [bucketOf, List.filter_eq_nil_iff]
      intro i hi
      simp [hlow i hi]
    have hl : bucketOf r.issues "low" = r.issues := by
      rw [bucketOf, List.filter_eq_self]
      intro i hi
      simp [hlow i hi]
    have hje : r.issues.isEmpty = false := by
      cases hje : r.issues.isEmpty
      · rfl
      · exact absurd (List.isEmpty_iff.mp hje) hne
    simp [severityOrder, List.filter, hc, hh, hm, hl, hje]

/-- Witness for C3 at a concrete all-low result. -/
theorem printResults_bucket_order_witness :
    severityOrder.filter
        (fun sev => !(bucketOf [sampleIssueLow] sev).isEmpty) = ["low"] :=
  (printResults_bucket_order ⟨[sampleIssueLow], "s", 90⟩).2.2.2
    (by decide)
    (by
      intro i hi
      rcases List.mem_singleton.mp hi with rfl
      rfl)

/-- C4: a terminal event with a non-success status, or with success
status but an absent (falsy) or structurally invalid payload, leaves
the result slot unchanged and appends exactly one failure line; and a
stream whose terminal events all fall into these cases makes the loop
return an unset result.  Processing is a total function, so neither
case raises: only opening the stream itself can fail, which lies
outside this embedding. -/
theorem review_failure_handled_locally :
    (∀ (slot : Option JSValue) (log : List String) (subtype : String)
        (out : JSValue) (cost : Option Int),
      ¬(subtype = "success" ∧ JSValue.jsTruthy out = true ∧
          isValidReviewResult out = true) →
      (processMessage (slot, log) (.result subtype out cost)).1 = slot ∧
      ∃ rest, (processMessage (slot, log) (.result subtype out cost)).2 =
        log ++ ["\n❌ Review failed: " ++ rest]) ∧
    (∀ msgs : List SDKMessage,
      (∀ subtype out cost, SDKMessage.result subtype out cost ∈ msgs →
        ¬(subtype = "success" ∧ JSValue.jsTruthy out = true ∧
            isValidReviewResult out = true)) →
      (runCodeReview msgs).1 = none) := by
  constructor
  · intro slot log subtype out cost h
    by_cases hc : (subtype == "success" && JSValue.jsTruthy out) = true
    · rcases (Bool.and_eq_true _ _).mp hc with ⟨h1, h2⟩
      have hv : isValidReviewResult out = false := by
        cases hvv : isValidReviewResult out
        · rfl
        · exact absurd ⟨eq_of_beq h1, h2, hvv⟩ h
      refine ⟨by simp [processMessage, hc, hv],
        "Invalid response structure", ?_⟩
      simp [processMessage, hc, hv]
    · refine ⟨by simp [processMessage, hc], subtype, ?_⟩
      simp [processMessage, hc]
  · intro msgs h
    exact runLoop_none_of_all_fail msgs h []

/-- Witness for C4 at the error_max_turns terminal event. -/
theorem review_failure_handled_locally_witness :
    (processMessage (none, [])
        (.result "error_max_turns" JSValue.undefined none)).1 = none ∧
    (runCodeReview [SDKMessage.result "error_max_turns" JSValue.undefined none]).1 =
      none := by
  constructor
  · exact (review_failure_handled_locally.1 none [] "error_max_turns"
      JSValue.undefined none (by
        rintro ⟨h1, -, -⟩
        exact absurd h1 (by decide))).1
  · refine review_failure_handled_locally.2
      [SDKMessage.result "error_max_turns" JSValue.undefined none] ?_
    intro subtype out cost hm
    rcases List.mem_singleton.mp hm with hm2
    injection hm2 with e1 e2 e3
    rintro ⟨h1, -, -⟩
    rw [e1] at h1
    exact absurd h1 (by decide)

/-- C5: the tool summarizer is a closed dispatch on the tool name: the
Read tool yields the file_path string with fallback file when the
field is nullish, the Glob tool yields the pattern string with
fallback pattern, the Grep tool yields the quoted pattern followed by
in and the path with fallback dot, and every other tool name yields
the empty string; being a total function, no input shape makes it
throw. -/
theorem getToolSummary_dispatch :
    (∀ input, (lookupField input "file_path").nullish = true →
        getToolSummary "Read" input = "file") ∧
    (∀ input s, lookupField input "file_path" = JSValue.string s →
        getToolSummary "Read" input = s) ∧
    (∀ input, (lookupField input "pattern").nullish = true →
        getToolSummary "Glob" input = "pattern") ∧
    (∀ input s, lookupField input "pattern" = JSValue.string s →
        getToolSummary "Glob" input = s) ∧
    (∀ input p q, lookupField input "pattern" = JSValue.string p →
        lookupField input "path" = JSValue.string q →
        getToolSummary "Grep" input = "\"" ++ p ++ "\" in " ++ q) ∧
    (∀ input, (lookupField input "pattern").nullish = true →
        (lookupField input "path").nullish = true →
        getToolSummary "Grep" input = "\"\" in .") ∧
    (∀ name input, name ≠ "Read" → name ≠ "Glob" → name ≠ "Grep" →
        getToolSummary name input = "") := by
  refine ⟨?_, ?_, ?_, ?_, ?_, ?_, ?_⟩
  · intro input h
    simp [getToolSummary, JSValue.coalesce, h, JSValue.jsToString]
  · intro input s h
    simp [getToolSummary, JSValue.coalesce, h, JSValue.nullish,
      JSValue.jsToString]
  · intro input h
    simp [getToolSummary, JSValue.coalesce, h, JSValue.jsToString]
  · intro input s h
    simp [getToolSummary, JSValue.coalesce, h, JSValue.nullish,
      JSValue.jsToString]
  · intro input p q hp hq
    simp [getToolSummary, JSValue.coalesce, hp, hq, JSValue.nullish,
      JSValue.jsToString]
  · intro input hp hq
    simp [getToolSummary, JSValue.coalesce, hp, hq, JSValue.jsToString]
  · intro name input h1 h2 h3
    simp [getToolSummary, h1, h2, h3]

/-- Witness for C5 at the concrete invocations named by the spec. -/
theorem getToolSummary_dispatch_witness :
    getToolSummary "Read" [("file_path", JSValue.string "x.ts")] = "x.ts" ∧
    getToolSummary "Read" [] = "file" ∧
    getToolSummary "Grep"
      [("pattern", JSValue.string "TODO"), ("path", JSValue.string "src")] =
      "\"TODO\" in src" ∧
    getToolSummary "Grep" [] = "\"\" in ." ∧
    getToolSummary "Bash" [("command", JSValue.string "ls")] = "" := by
  obtain ⟨h1, h2, h3, h4, h5, h6, h7⟩ := getToolSummary_dispatch
  refine ⟨h2 _ "x.ts" rfl, h1 [] rfl, ?_, h6 [] rfl rfl,
    h7 "Bash" _ (by decide) (by decide) (by decide)⟩
  have := h5 [("pattern", JSValue.string "TODO"), ("path", JSValue.string "src")]
    "TODO" "src" rfl rfl
  simpa using this

/-- C6: a tool-invocation block naming the Task delegation primitive
emits exactly one delegation progress line naming the subagent_type
string, with label unknown when the field is nullish; its output is
always the single delegation line, never a ToolInvocationSummary
line. -/
theorem task_delegation_line :
    (∀ input s, lookupField input "subagent_type" = JSValue.string s →
        processBlock (.toolUse "Task" input) = ["🤖 Delegating to: " ++ s]) ∧
    (∀ input, (lookupField input "subagent_type").nullish = true →
        processBlock (.toolUse "Task" input) =
          ["🤖 Delegating to: unknown"]) ∧
    (∀ input, ∃ s, processBlock (.toolUse "Task" input) =
        ["🤖 Delegating to: " ++ s]) := by
  refine ⟨?_, ?_, ?_⟩
  · intro input s h
    simp [processBlock, JSValue.coalesce, h, JSValue.nullish,
      JSValue.jsToString]
  · intro input h
    simp [processBlock, JSValue.coalesce, h, JSValue.jsToString]
  · intro input
    exact ⟨jsToString (coalesce (lookupField input "subagent_type")
      (.string "unknown")), by simp [processBlock]⟩

/-- Witness for C6 at the security-scanner delegation and at an absent
subagent_type field. -/
theorem task_delegation_line_witness :
    processBlock
        (.toolUse "Task" [("subagent_type", JSValue.string "security-scanner")]) =
      ["🤖 Delegating to: security-scanner"] ∧
    processBlock (.toolUse "Task" []) = ["🤖 Delegating to: unknown"] := by
  obtain ⟨h1, h2, -⟩ := task_delegation_line
  constructor
  · have := h1 [("subagent_type", JSValue.string "security-scanner")]
      "security-scanner" rfl
    simpa using this
  · exact h2 [] rfl

/-- C7: under the data-model precondition that a present line number
is positive, an absent line renders the location as the file alone and
a present line renders it as file, colon, line number. -/
theorem issueLocation_line_rendering (issue : ReviewIssue)
    (hpos : ∀ n, issue.line = some n → 0 < n) :
    (issue.line = none → issueLocation issue = issue.file) ∧
    (∀ n, issue.line = some n →
      issueLocation issue = issue.file ++ ":" ++ toString n) := by
  constructor
  · intro h
    simp [issueLocation, h]
  · intro n h
    have := hpos n h
    simp [issueLocation, h]
    omega

/-- Witness for C7 at a line-42 issue and at an issue with no line. -/
theorem issueLocation_line_rendering_witness :
    issueLocation ⟨"high", "bug", "b.ts", some 42, "overflow", none⟩ =
      "b.ts:42" ∧
    issueLocation ⟨"critical", "security", "auth.ts", none,
      "hardcoded secret", none⟩ = "auth.ts" := by
  constructor
  · have := (issueLocation_line_rendering
      ⟨"high", "bug", "b.ts", some 42, "overflow", none⟩
      (by
        intro n hn
        injection hn with h
        omega)).2 42 rfl
    simpa using this
  · exact (issueLocation_line_rendering
      ⟨"critical", "security", "auth.ts", none, "hardcoded secret", none⟩
      (by intro n hn; cases hn)).1 rfl

/-- C8: the first six printed lines are the two separator lines and
the title followed by the score line carrying the literal overallScore
value and the literal slash-100 label with no clamping for any integer
score, the issue count line and the summary line; everything after
these six lines is the severity bucket output. -/
theorem printResults_header_lines (r : ReviewResult) :
    (printResults r).take 6 =
      ["\n" ++ eqLine, "📊 REVIEW RESULTS", eqLine ++ "\n",
       "Score: " ++ toString r.overallScore ++ "/100",
       "Issues Found: " ++ toString r.issues.length ++ "\n",
       "Summary: " ++ r.summary ++ "\n"] ∧
    (printResults r).drop 6 =
      severityOrder.flatMap
        (fun sev => printBucket sev (bucketOf r.issues sev)) := by
  constructor <;> simp [printResults]

/-- C9: the result slot is filled only from a success terminal event
whose payload is truthy and passes validation; a stream with no
terminal event leaves the slot unset and the fold completes normally;
and on a session stream, which carries at most one terminal event, a
slot once filled keeps that exact value to the end of the stream. -/
theorem result_slot_write_once (msgs : List SDKMessage) :
    (∀ v : JSValue, (runCodeReview msgs).1 = some v →
      ∃ cost, SDKMessage.result "success" v cost ∈ msgs ∧
        JSValue.jsTruthy v = true ∧ isValidReviewResult v = true) ∧
    ((∀ m ∈ msgs, isResultMsg m = false) → (runCodeReview msgs).1 = none) ∧
    (msgs.countP isResultMsg ≤ 1 →
      ∀ (l₁ l₂ : List SDKMessage) (v : JSValue), msgs = l₁ ++ l₂ →
        (runCodeReview l₁).1 = some v → (runCodeReview msgs).1 = some v) := by
  refine ⟨?_, ?_, ?_⟩
  · intro v h
    rcases fold_some_source msgs none [] v h with hin | hslot
    · exact hin
    · exact absurd hslot (by simp)
  · intro h
    exact slot_preserved_nonresult msgs h none []
  · intro hcount l₁ l₂ v heq hsome
    subst heq
    rcases fold_some_source l₁ none [] v hsome with ⟨cost, hmem, -, -⟩ | hslot
    · have hpos : 0 < l₁.countP isResultMsg := by
        rw [List.countP_pos_iff]
        exact ⟨_, hmem, by simp [isResultMsg]⟩
      have hzero : l₂.countP isResultMsg = 0 := by
        rw [List.countP_append] at hcount
        omega
      have hnone : ∀ m ∈ l₂, isResultMsg m = false := by
        intro m hm
        have := List.countP_eq_zero.mp hzero m hm
        simpa using this
      rw [runCodeReview, List.foldl_append]
      rcases hrs : List.foldl processMessage (none, []) l₁ with ⟨s1, s2⟩
      have hs1 : s1 = some v := by
        have hv : (List.foldl processMessage (none, []) l₁).1 = some v := hsome
        rw [hrs] at hv
        exact hv
      rw [← hs1]
      exact slot_preserved_nonresult l₂ hnone s1 s2
    · exact absurd hslot (by simp)

/-- Witness for C9 at a one-event stream whose terminal event succeeds
with a valid payload, and at a stream with no terminal event. -/
theorem result_slot_write_once_witness :
    (runCodeReview
        [SDKMessage.result "success" samplePayload (some 1)]).1 =
      some samplePayload ∧
    (runCodeReview [SDKMessage.assistant []]).1 = none := by
  constructor
  · exact (result_slot_write_once
      [SDKMessage.result "success" samplePayload (some 1)]).2.2
      (by decide)
      [SDKMessage.result "success" samplePayload (some 1)] [] samplePayload
      (by simp) rfl
  · refine (result_slot_write_once [SDKMessage.assistant []]).2.1 ?_
    intro m hm
    rcases List.mem_singleton.mp hm with rfl
    rfl

/-- C10: an issue whose line field is present but equal to 0 renders
its location as the file alone, because the conditional tests numeric
truthiness rather than presence; the file-colon-line form appears
exactly for present non-zero line values. -/
theorem issueLocation_zero_line_truthiness :
    (∀ issue : ReviewIssue, issue.line = some 0 →
        issueLocation issue = issue.file) ∧
    (∀ (issue : ReviewIssue) (n : Int), issue.line = some n → n ≠ 0 →
        issueLocation issue = issue.file ++ ":" ++ toString n) := by
  constructor
  · intro issue h
    simp [issueLocation, h]
  · intro issue n h hn
    simp [issueLocation, h, hn]

/-- Witness for C10 at a line-0 issue and at a line-7 issue. -/
theorem issueLocation_zero_line_truthiness_witness :
    issueLocation ⟨"low", "style", "a.ts", some 0, "naming", none⟩ = "a.ts" ∧
    issueLocation ⟨"low", "bug", "c.ts", some 7, "typo", none⟩ = "c.ts:7" := by
  obtain ⟨h1, h2⟩ := issueLocation_zero_line_truthiness
  constructor
  · exact h1 ⟨"low", "style", "a.ts", some 0, "naming", none⟩ rfl
  · have := h2 ⟨"low", "bug", "c.ts", some 7, "typo", none⟩ 7 rfl (by decide)
    simpa using this
